import Mathlib

/-!
Verification of the SoC bus-fabric composition in `design/design.py`.

The design composes a Wishbone arbiter (three initiators: the CPU
instruction bus, the CPU data bus, and the debug initiator), a Wishbone
decoder (targets: debug, sram, csr bridge), a CSR decoder (targets:
gpio_0, uart_0, soc_id), and a dense Wishbone-to-CSR bridge
(data_width 32 over a CSR bus of data_width 8).

The fabric components themselves (amaranth_soc's Arbiter, Decoder,
csr.Decoder and WishboneCSRBridge) are external library code that is not
part of this repository's sources; their behavior is modelled from the
specification (sections 4.1-4.4), while every concrete parameter
(base addresses, sizes, widths, registration order) is taken from
`design/design.py`.
-/

set_option maxRecDepth 16384

namespace SoCFabric

/-! ## Bus data model (spec section 3) -/

/-- A bus request: address, direction, write data and byte-select mask
(spec section 3, `BusRequest`). Addresses are byte addresses. -/
structure BusRequest where
  addr : Nat
  is_write : Bool
  write_data : Nat
  byte_select_mask : Nat
  deriving Repr, DecidableEq

/-- A bus response (spec section 3, `BusResponse`). -/
structure BusResponse where
  read_data : Nat
  acknowledged : Bool
  error : Bool
  deriving Repr, DecidableEq

/-- A named address window of a decoder (spec section 3, `Region`). -/
structure Region where
  name : String
  base : Nat
  size : Nat
  deriving Repr, DecidableEq

/-- `a` lies inside region `r`'s half-open window `[base, base+size)`. -/
def Region.contains (r : Region) (a : Nat) : Bool :=
  decide (r.base ≤ a) && decide (a < r.base + r.size)

/-- Two windows intersect (half-open interval overlap). -/
def Region.overlaps (r1 r2 : Region) : Bool :=
  decide (r1.base < r2.base + r2.size) && decide (r2.base < r1.base + r1.size)

/-! ## Decoder registration (spec section 4.1) -/

/-- Registration-time errors of a decoder (spec section 7). -/
inductive RegError where
  | overlapError
  | zeroSizeError
  deriving Repr, DecidableEq

/-- Modelled from the spec: `Decoder.add` (section 4.1) registers a
target's window; it fails with `OverlapError` if the new window
intersects any previously registered window, and rejects zero-size
regions. The underlying library code (amaranth_soc decoders) is not in
the repository sources. -/
def addRegion (rs : List Region) (r : Region) : Except RegError (List Region) :=
  if r.size = 0 then .error .zeroSizeError
  else if rs.any (fun r0 => r.overlaps r0) then .error .overlapError
  else .ok (rs ++ [r])

/-- Fold a list of registrations through `addRegion`. -/
def addAll (rs : List Region) : List Region → Except RegError (List Region)
  | [] => .ok rs
  | r :: rest => match addRegion rs r with
    | .error e => .error e
    | .ok rs2 => addAll rs2 rest

/-- Modelled from the spec: `route(address)` (section 4.1) returns the
first registered region whose window contains the address. -/
def route (rs : List Region) (a : Nat) : Option Region :=
  rs.find? (fun r => r.contains a)

/-- The name of the routed region, if any. -/
def routeName (rs : List Region) (a : Nat) : Option String :=
  (route rs a).map Region.name

/-- No two distinct registered regions overlap. -/
def NoOverlap (rs : List Region) : Prop :=
  rs.Pairwise (fun r1 r2 => r1.overlaps r2 = false)

/-! ## Decoder transaction handling (spec section 4.1) -/

/-- A registered target: its window plus its response behavior, an
opaque collaborator function from rebased requests to responses. -/
structure TargetEntry where
  region : Region
  respond : BusRequest → BusResponse

/-- The decoder's only fabricated response, synthesized for an
unmapped address (spec section 4.1): acknowledged, error, read_data 0. -/
def busErrorResponse : BusResponse :=
  { read_data := 0, acknowledged := true, error := true }

/-- Modelled from the spec: decoder transaction handling (section 4.1).
If a target's window contains the address, the request is forwarded with
the address rebased to the target's local offset and that target's
response is returned unchanged; otherwise the synthesized bus-error
response is returned. The library decoder code is not in the
repository sources. -/
def decoderRespond (entries : List TargetEntry) (req : BusRequest) : BusResponse :=
  match entries.find? (fun e => e.region.contains req.addr) with
  | some e => e.respond { req with addr := req.addr - e.region.base }
  | none => busErrorResponse

/-! ## Concrete parameters of `design/design.py` -/

/-- `self.mem_spiflash_base` (design.py line 26). -/
def mem_spiflash_base : Nat := 0x00000000

/-- `self.mem_sram_base` (design.py line 27). -/
def mem_sram_base : Nat := 0x10000000

/-- `self.debug_base` (design.py line 30). -/
def debug_base : Nat := 0xa0000000

/-- `self.csr_base` (design.py line 33). -/
def csr_base : Nat := 0xb0000000

/-- `self.csr_gpio_base` (design.py line 34). -/
def csr_gpio_base : Nat := 0xb1000000

/-- `self.csr_uart_base` (design.py line 35). -/
def csr_uart_base : Nat := 0xb2000000

/-- `self.csr_soc_id_base` (design.py line 36). -/
def csr_soc_id_base : Nat := 0xb4000000

/-- `self.periph_offset` (design.py line 38). -/
def periph_offset : Nat := 0x00100000

/-- `self.sram_size` (design.py line 39): 2 KiB. -/
def sram_size : Nat := 0x800

/-- `self.bios_start` (design.py line 40): 1 MiB into spiflash. -/
def bios_start : Nat := 0x100000

/-- Shared Wishbone bus data width (design.py lines 45-46). -/
def wb_data_width : Nat := 32

/-- CSR sub-bus data width (design.py line 47). -/
def csr_data_width : Nat := 8

/-- CSR decoder address width (design.py line 47): the CSR sub-bus
spans `2 ^ 28` bytes. -/
def csr_addr_width : Nat := 28

/-- Size in bytes of the Wishbone window occupied by the dense
Wishbone-CSR bridge: the whole CSR address space, `2 ^ 28` bytes. -/
def csr_window_size : Nat := 2 ^ csr_addr_width

/-- GPIO CSR window size: `addr_width=5` (design.py line 83), `0x20` bytes. -/
def gpio_size : Nat := 2 ^ 5

/-- UART CSR window size: `addr_width=5` (design.py line 87), `0x20` bytes. -/
def uart_size : Nat := 2 ^ 5

/-- Modelled from the spec: the debug target's window size is not given
by the repository sources (OBIDebugModule is external library code); the
design places `dm_haltaddress` at `debug_base + 0x800`, so the window
holds at least `0x801` bytes; it is modelled as `0x1000` bytes and the
registration theorems are additionally proved for every size up to the
`0x10000000`-byte gap before the CSR window. -/
def debug_size : Nat := 0x1000

/-- Modelled from the spec: the SoC identification target's window size
is not given by the repository sources (SoCID is external library code);
it is modelled as 8 bytes (two 32-bit identification registers) and the
registration theorems are additionally proved for every size up to the
end of the CSR address space. -/
def soc_id_size : Nat := 8

/-- The Wishbone decoder registrations, in source order (design.py
lines 64, 79, 98): debug, sram, csr; the debug window size is a
parameter (see `debug_size`). -/
def wb_regions (d : Nat) : List Region :=
  [ { name := "debug", base := debug_base, size := d },
    { name := "sram", base := mem_sram_base, size := sram_size },
    { name := "csr", base := csr_base, size := csr_window_size } ]

/-- The CSR decoder registrations, in source order (design.py lines 84,
88, 93), at their CSR-space offsets (`addr - csr_base` as computed in the
source); the soc_id window size is a parameter (see `soc_id_size`). -/
def csr_regions (s : Nat) : List Region :=
  [ { name := "gpio_0", base := csr_gpio_base + 0 * periph_offset - csr_base, size := gpio_size },
    { name := "uart_0", base := csr_uart_base + 0 * periph_offset - csr_base, size := uart_size },
    { name := "soc_id", base := csr_soc_id_base - csr_base, size := s } ]

/-- The design's Wishbone address map with the modelled debug size. -/
def wb_map : List Region := wb_regions debug_size

/-- The design's CSR address map with the modelled soc_id size. -/
def csr_map : List Region := csr_regions soc_id_size

/-! ## CSR sub-bus and the Wishbone-CSR bridge (spec section 4.3) -/

/-- One narrow beat issued by the bridge on the CSR sub-bus: a CSR-space
byte address, direction, one byte of write data, and whether the beat's
byte-select bit was set (a write beat with a clear bit is still issued,
as a no-op write). -/
structure CsrBeat where
  addr : Nat
  is_write : Bool
  wdata : Nat
  enabled : Bool
  deriving Repr, DecidableEq

/-- A CSR target's per-beat response. -/
structure CsrResp where
  rdata : Nat
  error : Bool
  deriving Repr, DecidableEq

/-- Beats per wide CSR transaction of the dense bridge: the Wishbone
data width divided by the CSR data width (32 / 8 = 4). -/
def beats_per_txn : Nat := wb_data_width / csr_data_width

/-- Byte `k` (least significant first) of a value. -/
def byteSlice (v k : Nat) : Nat := v / 256 ^ k % 256

/-- The aligned base of the beat group containing a CSR-space address. -/
def beatBase (a : Nat) : Nat := a - a % beats_per_txn

/-- Modelled from the spec: the beat decomposition of one wide request
(section 4.3). Beats cover consecutive CSR byte addresses in
increasing-address order; a write beat carries one byte slice of
`write_data` and is gated by the corresponding `byte_select_mask` bit;
read beats are issued unconditionally. The library bridge code
(WishboneCSRBridge) is not in the repository sources. -/
def bridgeBeats (req : BusRequest) : List CsrBeat :=
  (List.range beats_per_txn).map fun k =>
    { addr := beatBase req.addr + k,
      is_write := req.is_write,
      wdata := if req.is_write then byteSlice req.write_data k else 0,
      enabled := if req.is_write then req.byte_select_mask.testBit k else true }

/-- Modelled from the spec: sequential beat issue with early abort
(section 4.3). Beats are issued one after another, each against the
target state left by the previous beat's response; if a beat's response
reports an error, no further beat is issued. Returns the final target
state and the trace of issued beats with their responses, in issue
order. -/
def runBeats {σ : Type} (step : σ → CsrBeat → σ × CsrResp) :
    σ → List CsrBeat → σ × List (CsrBeat × CsrResp)
  | s, [] => (s, [])
  | s, b :: bs =>
    let (s1, r) := step s b
    if r.error then (s1, [(b, r)])
    else
      let (s2, rest) := runBeats step s1 bs
      (s2, (b, r) :: rest)

/-- Concatenate the read bytes of a beat trace, least-significant beat
first. -/
def assemble (trace : List (CsrBeat × CsrResp)) : Nat :=
  (List.range trace.length).foldr
    (fun k acc => ((trace.get? k).map (fun p => p.2.rdata % 256)).getD 0 * 256 ^ k + acc) 0

/-- Modelled from the spec: the Wishbone-CSR bridge (section 4.3).
One wide request is decomposed into beats, the beats are issued
sequentially with early abort, and the aggregate response acknowledges,
reports an error iff some issued beat reported one, and carries the
issued read bytes concatenated least-significant beat first. -/
def bridgeRun {σ : Type} (step : σ → CsrBeat → σ × CsrResp) (s : σ)
    (req : BusRequest) : σ × BusResponse :=
  let (s1, trace) := runBeats step s (bridgeBeats req)
  (s1, { read_data := assemble trace,
         acknowledged := true,
         error := trace.any (fun p => p.2.error) })

/-- The CSR-space addresses the bridge issues for a request, in issue
order (for observing early abort through a recording collaborator). -/
def issuedAddrs {σ : Type} (step : σ → CsrBeat → σ × CsrResp) (s : σ)
    (req : BusRequest) : List Nat :=
  ((runBeats step s (bridgeBeats req)).2.map (fun p => p.1.addr))

/-! ## CSR decoder as a beat responder (spec section 4.4) -/

/-- A registered CSR target: its window plus its per-beat behavior. -/
structure CsrEntry where
  region : Region
  respond : CsrBeat → CsrResp

/-- Modelled from the spec: the CSR decoder (section 4.4) — same
contract as the Wishbone decoder at byte granularity: route the beat by
address, rebase, forward; unmapped CSR addresses yield the synthesized
error response. -/
def csrRespond (entries : List CsrEntry) (b : CsrBeat) : CsrResp :=
  match entries.find? (fun e => e.region.contains b.addr) with
  | some e => e.respond { b with addr := b.addr - e.region.base }
  | none => { rdata := 0, error := true }

/-- A byte-addressed memory collaborator on the CSR sub-bus: writes an
enabled write beat's byte, reads back stored bytes, never errors. Used
as the round-trip mock target. -/
def memStep (mem : Nat → Nat) (b : CsrBeat) : (Nat → Nat) × CsrResp :=
  if b.is_write then
    (if b.enabled then fun a => if a = b.addr then b.wdata % 256 else mem a % 256
     else fun a => mem a % 256,
     { rdata := 0, error := false })
  else (fun a => mem a % 256, { rdata := mem b.addr % 256, error := false })

/-- A wide write request at CSR-space address `a`. -/
def wideWrite (a v s : Nat) : BusRequest :=
  { addr := a, is_write := true, write_data := v, byte_select_mask := s }

/-- A wide read request at CSR-space address `a`. -/
def wideRead (a s : Nat) : BusRequest :=
  { addr := a, is_write := false, write_data := 0, byte_select_mask := s }

/-- Round trip through the bridge against the memory collaborator:
write `v` at `a` with mask `s`, then read back at `a` with mask `s`;
the value carried by the read response. -/
def writeThenRead (mem : Nat → Nat) (a v s : Nat) : Nat :=
  ((bridgeRun memStep ((bridgeRun memStep mem (wideWrite a v s)).1)
      (wideRead a s)).2).read_data

/-! ## The composed design responder -/

/-- The design's CSR decoder entries: gpio_0, uart_0, soc_id windows
with opaque per-beat collaborator behaviors. -/
def design_csr_entries (g u i : CsrBeat → CsrResp) : List CsrEntry :=
  [ { region := { name := "gpio_0", base := csr_gpio_base - csr_base, size := gpio_size }, respond := g },
    { region := { name := "uart_0", base := csr_uart_base - csr_base, size := uart_size }, respond := u },
    { region := { name := "soc_id", base := csr_soc_id_base - csr_base, size := soc_id_size }, respond := i } ]

/-- The design's Wishbone decoder entries: debug and sram with opaque
collaborator behaviors, and the csr window served by the bridge over
the CSR decoder (registered dense, design.py line 98). -/
def design_wb_entries (fd fs : BusRequest → BusResponse)
    (g u i : CsrBeat → CsrResp) : List TargetEntry :=
  [ { region := { name := "debug", base := debug_base, size := debug_size }, respond := fd },
    { region := { name := "sram", base := mem_sram_base, size := sram_size }, respond := fs },
    { region := { name := "csr", base := csr_base, size := csr_window_size },
      respond := fun req =>
        (bridgeRun (fun (_ : Unit) b => ((), csrRespond (design_csr_entries g u i) b)) () req).2 } ]

/-- The whole composed fabric: the shared-bus request is routed by the
Wishbone decoder; the csr window goes through the bridge and the CSR
decoder. -/
def designRespond (fd fs : BusRequest → BusResponse)
    (g u i : CsrBeat → CsrResp) (req : BusRequest) : BusResponse :=
  decoderRespond (design_wb_entries fd fs g u i) req

/-! ## The Wishbone arbiter (spec section 4.2)

The design registers three initiators in source order (design.py
lines 57, 58, 63): index 0 = `cpu.ibus`, index 1 = `cpu.dbus`,
index 2 = `debug.initiator`. -/

/-- The registered initiators, in registration order. -/
def wb_arbiter_initiators : List String :=
  ["cpu.ibus", "cpu.dbus", "debug.initiator"]

/-- Number of registered initiators. -/
def initiator_count : Nat := wb_arbiter_initiators.length

/-- The cyclic candidate order after the most recently granted
initiator `last`: `last+1, last+2, last+3` in registration order with
wrap-around. -/
def rotAfter (last : Fin 3) : List (Fin 3) :=
  [last + 1, last + 2, last + 3]

/-- Modelled from the spec: the round-robin arbitration decision
(section 4.2) — among the currently requesting initiators, the first
one in cyclic registration order after the most recently granted one is
selected; `none` when no initiator requests. The library arbiter code
(amaranth_soc wishbone.Arbiter) is not in the repository sources. -/
def nextGrant (last : Fin 3) (req : Fin 3 → Bool) : Option (Fin 3) :=
  (rotAfter last).find? req

/-- Cycle-level arbiter state: the per-initiator grant lines and the
most recently granted initiator (the round-robin pointer). -/
structure ArbState where
  gnt : Fin 3 → Bool
  last : Fin 3

/-- The initiator currently holding the grant, if any. -/
def ArbState.holder (s : ArbState) : Option (Fin 3) :=
  (List.finRange 3).find? s.gnt

/-- Modelled from the spec: one arbiter cycle (section 4.2). While a
grant is held, the grant is kept unchanged until the granted
transaction's acknowledge (or error) is observed, at which point the
grant is released and the pointer moves to the released initiator;
with no grant held, the round-robin decision selects at most one
requesting initiator. -/
def arbStep (s : ArbState) (req : Fin 3 → Bool) (ack : Bool) : ArbState :=
  match s.holder with
  | some i => if ack then { gnt := fun _ => false, last := i } else s
  | none =>
    match nextGrant s.last req with
    | some j => { gnt := fun k => decide (k = j), last := s.last }
    | none => s

/-- The arbiter's reset state: no grant held, pointer at the last
registered initiator so that the first decision prefers initiator 0. -/
def arbInit : ArbState :=
  { gnt := fun _ => false, last := 2 }

/-- The arbiter state after `t` cycles driven by an input stream of
per-cycle request lines and acknowledge. -/
def arbRun (ins : Nat → (Fin 3 → Bool) × Bool) : Nat → ArbState
  | 0 => arbInit
  | t + 1 => arbStep (arbRun ins t) (ins t).1 (ins t).2

/-- Transaction-level grant sequence: each element is the initiator
granted for one whole transaction, produced by the round-robin decision
from the pointer left by the previous transaction; when nobody
requests, the pointer stays. `req t` gives the request lines observed
at the `t`-th arbitration decision. -/
def grantSeq (last : Fin 3) (req : Nat → Fin 3 → Bool) : Nat → Fin 3
  | 0 => (nextGrant last (req 0)).getD last
  | t + 1 => (nextGrant (grantSeq last req t) (req (t + 1))).getD (grantSeq last req t)

/-- At most one grant line of an arbiter state is raised. -/
def AtMostOneGrant (s : ArbState) : Prop :=
  ∀ i j : Fin 3, s.gnt i = true → s.gnt j = true → i = j

/-- Stub Wishbone collaborator used in closed end-to-end scenarios. -/
def stubWb : BusRequest → BusResponse := fun _ => busErrorResponse

/-- Stub GPIO collaborator: every beat reads byte 0x55, error-free. -/
def gpioStub : CsrBeat → CsrResp := fun _ => { rdata := 0x55, error := false }

/-- Stub CSR collaborator: reads byte 0, error-free. -/
def csrStub : CsrBeat → CsrResp := fun _ => { rdata := 0, error := false }

/-! ## Helper lemmas -/

/-- Disjoint half-open windows do not overlap. -/
lemma overlaps_false_of (r1 r2 : Region)
    (h : r2.base + r2.size ≤ r1.base ∨ r1.base + r1.size ≤ r2.base) :
    r1.overlaps r2 = false := by
  simp only [Region.overlaps, Bool.and_eq_false_iff, decide_eq_false_iff_not, not_lt]
  omega

/-- Two windows containing a common address overlap. -/
lemma overlaps_of_contains {r1 r2 : Region} {a : Nat}
    (h1 : r1.contains a = true) (h2 : r2.contains a = true) :
    r1.overlaps r2 = true := by
  simp only [Region.contains, Bool.and_eq_true, decide_eq_true_eq] at h1 h2
  simp only [Region.overlaps, Bool.and_eq_true, decide_eq_true_eq]
  omega

/-- A decoder returns the synthesized bus-error response whenever no
registered window contains the address. -/
lemma decoderRespond_unmapped (entries : List TargetEntry) (req : BusRequest)
    (h : ∀ e ∈ entries, e.region.contains req.addr = false) :
    decoderRespond entries req = busErrorResponse := by
  unfold decoderRespond
  rw [List.find?_eq_none.mpr]
  intro e he
  simp [h e he]

/-- A decoder with pairwise disjoint windows forwards a request inside
a registered window to that window's target, address rebased. -/
lemma decoderRespond_mapped (entries : List TargetEntry) (req : BusRequest)
    (e : TargetEntry)
    (hdisj : (entries.map TargetEntry.region).Pairwise
      (fun r1 r2 => r1.overlaps r2 = false))
    (hmem : e ∈ entries) (hin : e.region.contains req.addr = true) :
    decoderRespond entries req = e.respond { req with addr := req.addr - e.region.base } := by
  induction entries with
  | nil => cases hmem
  | cons hd tl ih =>
    rcases List.mem_cons.mp hmem with rfl | hmem'
    · have hfind : (e :: tl).find? (fun x => x.region.contains req.addr) = some e := by
        rw [List.find?_cons_of_pos]
        exact hin
      simp only [decoderRespond, hfind]
    · have hhd : hd.region.contains req.addr = false := by
        by_contra hc
        have hc' : hd.region.contains req.addr = true := by
          revert hc; cases hd.region.contains req.addr <;> simp
        have := (List.pairwise_cons.mp hdisj).1 e.region
          (List.mem_map_of_mem TargetEntry.region hmem')
        rw [overlaps_of_contains hc' hin] at this
        cases this
      have hfind : (hd :: tl).find? (fun x => x.region.contains req.addr) =
          tl.find? (fun x => x.region.contains req.addr) := by
        rw [List.find?_cons_of_neg]
        simp [hhd]
      have step : decoderRespond (hd :: tl) req = decoderRespond tl req := by
        simp only [decoderRespond, hfind]
      rw [step]
      exact ih (List.pairwise_cons.mp hdisj).2 hmem'

/-- `addAll` succeeds and appends when every added region is nonempty
and clear of everything registered before it. -/
lemma addAll_ok_aux : ∀ (rest acc : List Region),
    (∀ r ∈ rest, r.size ≠ 0) →
    (∀ r ∈ rest, ∀ r0 ∈ acc, r.overlaps r0 = false) →
    rest.Pairwise (fun a b => b.overlaps a = false) →
    addAll acc rest = .ok (acc ++ rest)
  | [], acc, _, _, _ => by simp [addAll]
  | r :: rest, acc, h0, hacc, hpw => by
    have hr0 : r.size ≠ 0 := h0 r (List.mem_cons_self r rest)
    have hany : acc.any (fun r0 => r.overlaps r0) = false := by
      rw [List.any_eq_false]
      intro r0 hr0m
      simp [hacc r (List.mem_cons_self r rest) r0 hr0m]
    have hadd : addRegion acc r = .ok (acc ++ [r]) := by
      simp [addRegion, hr0, hany]
    have hrec := addAll_ok_aux rest (acc ++ [r])
      (fun x hx => h0 x (List.mem_cons_of_mem r hx))
      (by
        intro x hx r0 hr0m
        rcases List.mem_append.mp hr0m with hm | hm
        · exact hacc x (List.mem_cons_of_mem r hx) r0 hm
        · rcases List.mem_singleton.mp hm with rfl
          exact (List.pairwise_cons.mp hpw).1 x hx)
      (List.pairwise_cons.mp hpw).2
    calc addAll acc (r :: rest)
        = addAll (acc ++ [r]) rest := by simp [addAll, hadd]
      _ = .ok (acc ++ [r] ++ rest) := hrec
      _ = .ok (acc ++ r :: rest) := by simp

/-! ## Claim theorems -/

/-- C2: within each decoder of this design the registered windows
(debug, sram, csr on the Wishbone decoder; gpio_0, uart_0, soc_id on
the CSR decoder) are pairwise non-overlapping and all registrations
succeed — proved for every debug-window size up to the 0x10000000-byte
gap below the CSR window and every soc_id window size fitting in the
CSR space above its base — and registering any nonempty window that
intersects a previously registered one fails with OverlapError instead
of being added. -/
theorem C2_decoder_windows_disjoint :
    (∀ d s : Nat, 0 < d → d ≤ 0x10000000 → 0 < s → s ≤ 0x0C000000 →
      addAll [] (wb_regions d) = .ok (wb_regions d) ∧
      addAll [] (csr_regions s) = .ok (csr_regions s) ∧
      NoOverlap (wb_regions d) ∧ NoOverlap (csr_regions s)) ∧
    (∀ (rs : List Region) (r : Region), r.size ≠ 0 →
      rs.any (fun r0 => r.overlaps r0) = true →
      addRegion rs r = .error .overlapError) := by
  constructor
  · intro d s hd hdle hs hsle
    have hd0 : d ≠ 0 := by omega
    have hs0 : s ≠ 0 := by omega
    have h21 : Region.overlaps
        { name := "sram", base := mem_sram_base, size := sram_size }
        { name := "debug", base := debug_base, size := d } = false := by
      apply overlaps_false_of
      simp only [mem_sram_base, sram_size, debug_base]
      omega
    have h31 : Region.overlaps
        { name := "csr", base := csr_base, size := csr_window_size }
        { name := "debug", base := debug_base, size := d } = false := by
      apply overlaps_false_of
      simp only [csr_base, csr_window_size, csr_addr_width, debug_base]
      omega
    have h32 : Region.overlaps
        { name := "csr", base := csr_base, size := csr_window_size }
        { name := "sram", base := mem_sram_base, size := sram_size } = false := by
      apply overlaps_false_of
      simp only [csr_base, csr_window_size, csr_addr_width, mem_sram_base, sram_size]
      omega
    have c21 : Region.overlaps
        { name := "uart_0", base := csr_uart_base + 0 * periph_offset - csr_base, size := uart_size }
        { name := "gpio_0", base := csr_gpio_base + 0 * periph_offset - csr_base, size := gpio_size } = false := by
      apply overlaps_false_of
      simp only [csr_uart_base, csr_gpio_base, periph_offset, csr_base, uart_size, gpio_size]
      omega
    have c31 : Region.overlaps
        { name := "soc_id", base := csr_soc_id_base - csr_base, size := s }
        { name := "gpio_0", base := csr_gpio_base + 0 * periph_offset - csr_base, size := gpio_size } = false := by
      apply overlaps_false_of
      simp only [csr_soc_id_base, csr_gpio_base, periph_offset, csr_base, gpio_size]
      omega
    have c32 : Region.overlaps
        { name := "soc_id", base := csr_soc_id_base - csr_base, size := s }
        { name := "uart_0", base := csr_uart_base + 0 * periph_offset - csr_base, size := uart_size } = false := by
      apply overlaps_false_of
      simp only [csr_soc_id_base, csr_uart_base, periph_offset, csr_base, uart_size]
      omega
    refine ⟨?_, ?_, ?_, ?_⟩
    · have := addAll_ok_aux (wb_regions d) []
        (by
          intro r hr
          simp only [wb_regions, List.mem_cons, List.not_mem_nil, or_false] at hr
          rcases hr with rfl | rfl | rfl
          · exact hd0
          · simp [sram_size]
          · simp [csr_window_size])
        (by
          intro r _ r0 hr0
          exact absurd hr0 (List.not_mem_nil r0))
        (by
          simp only [wb_regions, List.pairwise_cons, List.mem_cons,
            List.mem_singleton, List.not_mem_nil, List.Pairwise.nil]
          refine ⟨?_, ?_, ?_⟩
          · rintro r (rfl | rfl | h)
            · exact h21
            · exact h31
            · cases h
          · rintro r (rfl | h)
            · exact h32
            · cases h
          · exact ⟨(fun r h => nomatch h), trivial⟩)
      simpa using this
    · have := addAll_ok_aux (csr_regions s) []
        (by
          intro r hr
          simp only [csr_regions, List.mem_cons, List.not_mem_nil, or_false] at hr
          rcases hr with rfl | rfl | rfl
          · simp [gpio_size]
          · simp [uart_size]
          · exact hs0)
        (by
          intro r _ r0 hr0
          exact absurd hr0 (List.not_mem_nil r0))
        (by
          simp only [csr_regions, List.pairwise_cons, List.mem_cons,
            List.mem_singleton, List.not_mem_nil, List.Pairwise.nil]
          refine ⟨?_, ?_, ?_⟩
          · rintro r (rfl | rfl | h)
            · exact c21
            · exact c31
            · cases h
          · rintro r (rfl | h)
            · exact c32
            · cases h
          · exact ⟨(fun r h => nomatch h), trivial⟩)
      simpa using this
    · simp only [NoOverlap, wb_regions, List.pairwise_cons, List.mem_cons,
        List.mem_singleton, List.not_mem_nil, List.Pairwise.nil]
      refine ⟨?_, ?_, ?_⟩
      · rintro r (rfl | rfl | h)
        · apply overlaps_false_of
          simp only [debug_base, mem_sram_base, sram_size]
          omega
        · apply overlaps_false_of
          simp only [debug_base, csr_base, csr_window_size, csr_addr_width]
          omega
        · cases h
      · rintro r (rfl | h)
        · apply overlaps_false_of
          simp only [mem_sram_base, sram_size, csr_base, csr_window_size, csr_addr_width]
          omega
        · cases h
      · exact ⟨(fun r h => nomatch h), trivial⟩
    · simp only [NoOverlap, csr_regions, List.pairwise_cons, List.mem_cons,
        List.mem_singleton, List.not_mem_nil, List.Pairwise.nil]
      refine ⟨?_, ?_, ?_⟩
      · rintro r (rfl | rfl | h)
        · apply overlaps_false_of
          simp only [csr_gpio_base, csr_uart_base, periph_offset, csr_base, gpio_size, uart_size]
          omega
        · apply overlaps_false_of
          simp only [csr_gpio_base, csr_soc_id_base, periph_offset, csr_base, gpio_size]
          omega
        · cases h
      · rintro r (rfl | h)
        · apply overlaps_false_of
          simp only [csr_uart_base, csr_soc_id_base, periph_offset, csr_base, uart_size]
          omega
        · cases h
      · exact ⟨(fun r h => nomatch h), trivial⟩
  · intro rs r hsz hov
    simp [addRegion, hsz, hov]

/-- C2 witness: both decoders' registrations at the modelled debug and
soc_id sizes, and a concrete overlapping registration that fails. -/
theorem C2_decoder_windows_disjoint_witness :
    (addAll [] (wb_regions 0x1000) = .ok (wb_regions 0x1000) ∧
      addAll [] (csr_regions 8) = .ok (csr_regions 8) ∧
      NoOverlap (wb_regions 0x1000) ∧ NoOverlap (csr_regions 8)) ∧
    addRegion [{ name := "a", base := 0, size := 4 }] { name := "b", base := 2, size := 4 } =
      .error .overlapError :=
  ⟨C2_decoder_windows_disjoint.1 0x1000 8 (by decide) (by decide) (by decide) (by decide),
   C2_decoder_windows_disjoint.2 _ _ (by decide) (by decide)⟩

/-- C3: an address lying in no registered window gets the synthesized
response `{acknowledged := true, error := true, read_data := 0}` (the
one-cycle response latency is a clock-timing aspect outside this
functional model), and an address inside a registered window of a
decoder with disjoint windows gets that target's response unchanged
except for address rebasing. -/
theorem C3_decoder_routing :
    (∀ (entries : List TargetEntry) (req : BusRequest),
      (∀ e ∈ entries, e.region.contains req.addr = false) →
      decoderRespond entries req =
        { read_data := 0, acknowledged := true, error := true }) ∧
    (∀ (entries : List TargetEntry) (req : BusRequest) (e : TargetEntry),
      (entries.map TargetEntry.region).Pairwise (fun r1 r2 => r1.overlaps r2 = false) →
      e ∈ entries → e.region.contains req.addr = true →
      decoderRespond entries req =
        e.respond { req with addr := req.addr - e.region.base }) :=
  ⟨fun entries req h => decoderRespond_unmapped entries req h,
   fun entries req e hd hm hi => decoderRespond_mapped entries req e hd hm hi⟩

/-- C3 witness: the design's Wishbone map with stub targets — an
unmapped address yields the synthesized error response, and a mapped
sram address yields the sram target's response on the rebased
request. -/
theorem C3_decoder_routing_witness :
    (decoderRespond
        (design_wb_entries (fun _ => busErrorResponse)
          (fun r => { read_data := r.addr, acknowledged := true, error := false })
          (fun _ => { rdata := 0, error := false })
          (fun _ => { rdata := 0, error := false })
          (fun _ => { rdata := 0, error := false }))
        (wideRead 0x20000000 0xF) =
      { read_data := 0, acknowledged := true, error := true }) ∧
    (decoderRespond
        (design_wb_entries (fun _ => busErrorResponse)
          (fun r => { read_data := r.addr, acknowledged := true, error := false })
          (fun _ => { rdata := 0, error := false })
          (fun _ => { rdata := 0, error := false })
          (fun _ => { rdata := 0, error := false }))
        (wideRead 0x10000100 0xF) =
      { read_data := 0x100, acknowledged := true, error := false }) := by
  constructor
  · exact C3_decoder_routing.1 _ _ (by decide)
  · exact C3_decoder_routing.2 _ _
      { region := { name := "sram", base := mem_sram_base, size := sram_size },
        respond := fun r => { read_data := r.addr, acknowledged := true, error := false } }
      (by decide) (by simp [design_wb_entries]) (by decide)

/-- One arbiter cycle preserves grant exclusivity. -/
lemma arbStep_atMostOne (s : ArbState) (req : Fin 3 → Bool) (ack : Bool)
    (h : AtMostOneGrant s) : AtMostOneGrant (arbStep s req ack) := by
  unfold arbStep
  cases hh : s.holder with
  | some i =>
    cases ack with
    | true => intro a b ha _; cases ha
    | false => exact h
  | none =>
    cases hg : nextGrant s.last req with
    | some j =>
      intro a b ha hb
      simp only [decide_eq_true_eq] at ha hb
      rw [ha, hb]
    | none => exact h

/-- Every state the arbiter reaches keeps grant exclusivity. -/
lemma arbRun_atMostOne (ins : Nat → (Fin 3 → Bool) × Bool) :
    ∀ t, AtMostOneGrant (arbRun ins t)
  | 0 => by intro i j hi _; cases hi
  | t + 1 => arbStep_atMostOne _ _ _ (arbRun_atMostOne ins t)

/-- While a grant is held and the response has not yet been observed,
the whole arbiter state — the grant lines included — is unchanged. -/
lemma arbStep_hold (s : ArbState) (req : Fin 3 → Bool) (i : Fin 3)
    (h : s.gnt i = true) : arbStep s req false = s := by
  have hsome : s.holder.isSome := by
    unfold ArbState.holder
    rw [List.find?_isSome]
    exact ⟨i, List.mem_finRange i, h⟩
  unfold arbStep
  cases hh : s.holder with
  | some k => simp
  | none => rw [hh] at hsome; cases hsome

/-- C1: the arbiter over the three registered initiators (the CPU
instruction bus, the CPU data bus and the debug initiator, in
registration order): under any input stream of request lines and
acknowledges, at every cycle at most one initiator holds the grant; and
while a granted transaction is outstanding (no acknowledge or error
observed yet), the grant lines are unchanged, so no other initiator's
transaction can interleave mid-flight. -/
theorem C1_arbiter_mutual_exclusion :
    initiator_count = 3 ∧
    (∀ (ins : Nat → (Fin 3 → Bool) × Bool) (t : Nat) (i j : Fin 3),
      (arbRun ins t).gnt i = true → (arbRun ins t).gnt j = true → i = j) ∧
    (∀ (s : ArbState) (req : Fin 3 → Bool) (i : Fin 3),
      s.gnt i = true → arbStep s req false = s) := by
  refine ⟨rfl, ?_, ?_⟩
  · intro ins t i j hi hj
    exact arbRun_atMostOne ins t i j hi hj
  · intro s req i h
    exact arbStep_hold s req i h

/-- C1 witness: after one cycle with everybody requesting, initiator 0
holds the grant; exclusivity applied there, and grant-keeping applied
at that granted state with no acknowledge. -/
theorem C1_arbiter_mutual_exclusion_witness :
    (0 : Fin 3) = 0 ∧
    arbStep { gnt := fun k => decide (k = 0), last := 2 } (fun _ => true) false =
      { gnt := fun k => decide (k = 0), last := 2 } :=
  ⟨C1_arbiter_mutual_exclusion.2.1 (fun _ => (fun _ => true, false)) 1 0 0
      (by decide) (by decide),
   C1_arbiter_mutual_exclusion.2.2 { gnt := fun k => decide (k = 0), last := 2 }
      (fun _ => true) 0 (by decide)⟩

/-- The round-robin decision grants somebody whenever initiator `i`
requests, and the grant falls on `i` itself or strictly shrinks the
cyclic distance to `i`; hence a continuously requesting initiator is
reached within three arbitration decisions. -/
lemma rr_core : ∀ (last i : Fin 3) (r0 r1 r2 : Fin 3 → Bool),
    r0 i = true → r1 i = true → r2 i = true →
    ((nextGrant last r0).getD last = i ∨
     (nextGrant ((nextGrant last r0).getD last) r1).getD ((nextGrant last r0).getD last) = i ∨
     (nextGrant ((nextGrant ((nextGrant last r0).getD last) r1).getD ((nextGrant last r0).getD last)) r2).getD
       ((nextGrant ((nextGrant last r0).getD last) r1).getD ((nextGrant last r0).getD last)) = i) := by
  decide

/-- C8: round-robin fairness in this three-initiator composition — an
initiator that requests at every arbitration decision is granted within
at most `N - 1 = 2` other initiators' transactions: among any three
consecutive transaction grants one goes to it (assuming, as the
transaction-level model does, that every granted initiator eventually
completes its transaction). -/
theorem C8_round_robin_fairness :
    initiator_count = 3 ∧
    (∀ (last i : Fin 3) (req : Nat → Fin 3 → Bool),
      (∀ t, req t i = true) →
      ∃ t, t ≤ 2 ∧ grantSeq last req t = i) := by
  refine ⟨rfl, ?_⟩
  intro last i req h
  have hc := rr_core last i (req 0) (req 1) (req 2) (h 0) (h 1) (h 2)
  have e0 : grantSeq last req 0 = (nextGrant last (req 0)).getD last := rfl
  have e1 : grantSeq last req 1 =
      (nextGrant (grantSeq last req 0) (req 1)).getD (grantSeq last req 0) := rfl
  have e2 : grantSeq last req 2 =
      (nextGrant (grantSeq last req 1) (req 2)).getD (grantSeq last req 1) := rfl
  rcases hc with hg | hg | hg
  · exact ⟨0, by omega, by rw [e0]; exact hg⟩
  · exact ⟨1, by omega, by rw [e1, e0]; exact hg⟩
  · exact ⟨2, by omega, by rw [e2, e1, e0]; exact hg⟩

/-- C8 witness: with everybody requesting all the time and the pointer
on initiator 0, the debug initiator (index 2) is granted within the
first three transactions. -/
theorem C8_round_robin_fairness_witness :
    ∃ t, t ≤ 2 ∧ grantSeq 0 (fun _ _ => true) t = 2 :=
  C8_round_robin_fairness.2 0 2 (fun _ _ => true) (fun _ => rfl)

/-- The CSR decoder returns the synthesized error response whenever no
registered CSR window contains the beat's address. -/
lemma csrRespond_unmapped (entries : List CsrEntry) (b : CsrBeat)
    (h : ∀ e ∈ entries, e.region.contains b.addr = false) :
    csrRespond entries b = { rdata := 0, error := true } := by
  unfold csrRespond
  rw [List.find?_eq_none.mpr]
  intro e he
  simp [h e he]

/-- An address outside the gpio_0, uart_0 and soc_id windows is
contained in no entry of the composed CSR decoder. -/
lemma design_csr_entries_contains_false (g u i : CsrBeat → CsrResp) (a : Nat)
    (h1 : Region.contains { name := "gpio_0", base := csr_gpio_base - csr_base, size := gpio_size } a = false)
    (h2 : Region.contains { name := "uart_0", base := csr_uart_base - csr_base, size := uart_size } a = false)
    (h3 : Region.contains { name := "soc_id", base := csr_soc_id_base - csr_base, size := soc_id_size } a = false) :
    ∀ e ∈ design_csr_entries g u i, e.region.contains a = false := by
  intro e he
  simp only [design_csr_entries, List.mem_cons, List.not_mem_nil, or_false] at he
  rcases he with rfl | rfl | rfl <;> assumption

/-- An address outside the debug, sram and csr windows is contained in
no entry of the composed Wishbone decoder. -/
lemma design_wb_entries_contains_false (fd fs : BusRequest → BusResponse)
    (g u i : CsrBeat → CsrResp) (a : Nat)
    (h1 : Region.contains { name := "debug", base := debug_base, size := debug_size } a = false)
    (h2 : Region.contains { name := "sram", base := mem_sram_base, size := sram_size } a = false)
    (h3 : Region.contains { name := "csr", base := csr_base, size := csr_window_size } a = false) :
    ∀ e ∈ design_wb_entries fd fs g u i, e.region.contains a = false := by
  intro e he
  simp only [design_wb_entries, List.mem_cons, List.not_mem_nil, or_false] at he
  rcases he with rfl | rfl | rfl <;> assumption

/-- C4: in the composed design, a request to 0x10000100 routes to the
sram window `[0x10000000, 0x10000800)`; a request to 0xb1000004 routes
into the csr window and every beat the bridge issues for it lands in
the gpio_0 window `[0xb1000000, 0xb1000020)` — an end-to-end read
returns the gpio collaborator's bytes, error-free — and a request to
the unmapped address 0x20000000 yields the synthesized error
response. -/
theorem C4_concrete_routing :
    ∀ (fd fs : BusRequest → BusResponse) (g u i : CsrBeat → CsrResp),
      routeName wb_map 0x10000100 = some "sram" ∧
      routeName wb_map 0xb1000004 = some "csr" ∧
      (bridgeBeats (wideRead (0xb1000004 - csr_base) 0xF)).all
        (fun b => routeName csr_map b.addr = some "gpio_0") = true ∧
      designRespond stubWb stubWb gpioStub csrStub csrStub
        (wideRead 0xb1000004 0xF) =
        { read_data := 0x55555555, acknowledged := true, error := false } ∧
      designRespond fd fs g u i
        (wideRead 0x20000000 0xF) = busErrorResponse := by
  intro fd fs g u i
  refine ⟨by decide, by decide, by decide, by decide, ?_⟩
  exact decoderRespond_unmapped _ _
    (design_wb_entries_contains_false _ _ _ _ _ _ (by decide) (by decide) (by decide))

/-- C5: the failing fetch the claim is about. The source defines
`mem_spiflash_base = 0x00000000` and points the CPU reset vector at
`bios_start = 0x100000` inside that region, but never registers any
memory target there: the realized Wishbone map contains no window
holding the reset-vector address, so the fetch yields the synthesized
bus-error response instead of routing to a mapped memory target. -/
theorem C5_reset_vector_unmapped :
    ∀ (fd fs : BusRequest → BusResponse) (g u i : CsrBeat → CsrResp),
      mem_spiflash_base = 0x00000000 ∧
      bios_start = 0x100000 ∧
      route wb_map (mem_spiflash_base + bios_start) = none ∧
      designRespond fd fs g u i
        (wideRead (mem_spiflash_base + bios_start) 0xF) = busErrorResponse := by
  intro fd fs g u i
  refine ⟨rfl, rfl, by decide, ?_⟩
  exact decoderRespond_unmapped _ _
    (design_wb_entries_contains_false _ _ _ _ _ _ (by decide) (by decide) (by decide))

/-- C10: the gpio_0 and uart_0 CSR windows span exactly `2 ^ 5 = 0x20`
bytes, `[0xb1000000, 0xb1000020)` and `[0xb2000000, 0xb2000020)` in bus
addresses; the CSR-space address just past the gpio window (bus address
0xb1000020) lies in no registered CSR window, the CSR decoder
synthesizes its error response for it, and the composed design reports
`error := true` for it rather than routing to an adjacent
peripheral. -/
theorem C10_csr_window_bounds :
    ∀ (g u i : CsrBeat → CsrResp),
      gpio_size = 0x20 ∧ uart_size = 0x20 ∧
      csr_base + (csr_gpio_base - csr_base) = 0xb1000000 ∧
      csr_base + (csr_gpio_base - csr_base) + gpio_size = 0xb1000020 ∧
      csr_base + (csr_uart_base - csr_base) + uart_size = 0xb2000020 ∧
      routeName csr_map (0xb1000004 - csr_base) = some "gpio_0" ∧
      route csr_map (0xb1000020 - csr_base) = none ∧
      route csr_map (0xb2000020 - csr_base) = none ∧
      csrRespond (design_csr_entries g u i)
        { addr := 0xb1000020 - csr_base, is_write := false, wdata := 0, enabled := true } =
        { rdata := 0, error := true } ∧
      (designRespond stubWb stubWb gpioStub csrStub csrStub
        (wideRead 0xb1000020 0xF)).error = true := by
  intro g u i
  refine ⟨rfl, rfl, by decide, by decide, by decide, by decide, by decide, by decide, ?_, by decide⟩
  exact csrRespond_unmapped _ _
    (design_csr_entries_contains_false _ _ _ _ (by decide) (by decide) (by decide))

/-! ## Bridge beat-sequencing lemmas -/

/-- The issued beats are, in order, exactly the first issued-count
planned beats: issue order follows the planned increasing-address
order and never skips or reorders. -/
lemma runBeats_map_fst {σ : Type} (step : σ → CsrBeat → σ × CsrResp) :
    ∀ (bs : List CsrBeat) (s : σ),
      ((runBeats step s bs).2).map Prod.fst =
        bs.take ((runBeats step s bs).2).length
  | [], s => by simp [runBeats]
  | b :: bs, s => by
    rcases hstep : step s b with ⟨s1, r⟩
    by_cases he : r.error = true
    · simp [runBeats, hstep, he]
    · have he' : r.error = false := by revert he; cases r.error <;> simp
      have ih := runBeats_map_fst step bs s1
      rcases hrec : runBeats step s1 bs with ⟨s2, rest⟩
      rw [hrec] at ih
      simp [runBeats, hstep, he', hrec, ih]

/-- Once a beat's response reports an error, that beat is the last
one issued: the trace ends right there. -/
lemma runBeats_error_stops {σ : Type} (step : σ → CsrBeat → σ × CsrResp) :
    ∀ (bs : List CsrBeat) (s : σ) (k : Nat) (p : CsrBeat × CsrResp),
      ((runBeats step s bs).2).get? k = some p → p.2.error = true →
      ((runBeats step s bs).2).length = k + 1
  | [], s, k, p => by simp [runBeats]
  | b :: bs, s, k, p => by
    intro hget herr
    rcases hstep : step s b with ⟨s1, r⟩
    by_cases he : r.error = true
    · simp only [runBeats, hstep, he, if_true] at hget ⊢
      cases k with
      | zero => simp
      | succ k => simp at hget
    · have he' : r.error = false := by revert he; cases r.error <;> simp
      have ih := runBeats_error_stops step bs s1
      rcases hrec : runBeats step s1 bs with ⟨s2, rest⟩
      simp only [runBeats, hstep, he', hrec] at hget ⊢
      cases k with
      | zero =>
        simp only [List.get?] at hget
        cases hget
        rw [herr] at he'
        cases he'
      | succ k =>
        simp only [List.get?] at hget
        have hlen := runBeats_error_stops step bs s1 k p (by rw [hrec]; exact hget) herr
        rw [hrec] at hlen
        simpa using hlen

/-- An erroring response among the issued beats makes the bridge's
aggregate response report the error. -/
lemma runBeats_any_error {σ : Type} (step : σ → CsrBeat → σ × CsrResp)
    (bs : List CsrBeat) (s : σ) (k : Nat) (p : CsrBeat × CsrResp)
    (hget : ((runBeats step s bs).2).get? k = some p) (herr : p.2.error = true) :
    ((runBeats step s bs).2).any (fun q => q.2.error) = true := by
  rw [List.any_eq_true]
  exact ⟨p, List.get?_mem hget, herr⟩

/-- When no beat ever errors, every planned beat is issued. -/
lemma runBeats_length_no_error {σ : Type} (step : σ → CsrBeat → σ × CsrResp)
    (h : ∀ (s : σ) (b : CsrBeat), (step s b).2.error = false) :
    ∀ (bs : List CsrBeat) (s : σ),
      ((runBeats step s bs).2).length = bs.length
  | [], s => by simp [runBeats]
  | b :: bs, s => by
    rcases hstep : step s b with ⟨s1, r⟩
    have he : r.error = false := by
      have hh := h s b
      rw [hstep] at hh
      exact hh
    have ih := runBeats_length_no_error step h bs s1
    rcases hrec : runBeats step s1 bs with ⟨s2, rest⟩
    rw [hrec] at ih
    simp [runBeats, hstep, he, hrec, ih]

/-- The memory collaborator never errors. -/
lemma memStep_no_error : ∀ (mem : Nat → Nat) (b : CsrBeat),
    (memStep mem b).2.error = false := by
  intro mem b
  cases hb : b.is_write <;> simp [memStep, hb]

/-- C7: for every wide CSR transaction over any stateful collaborator,
the issued beats are, in order, exactly a leading segment of the
planned increasing-address beat sequence (so beat k+1 is only issued
after beat k's response has been consumed by the sequencer's state
threading); and whenever issued beat k's response reports an error it
is the last issued beat — beats k+1..m are never issued — and the
bridge's aggregate response carries `error := true`. -/
theorem C7_bridge_early_abort :
    ∀ (σ : Type) (step : σ → CsrBeat → σ × CsrResp) (s : σ) (req : BusRequest),
      (((runBeats step s (bridgeBeats req)).2).map Prod.fst =
        (bridgeBeats req).take ((runBeats step s (bridgeBeats req)).2).length) ∧
      (∀ (k : Nat) (p : CsrBeat × CsrResp),
        ((runBeats step s (bridgeBeats req)).2).get? k = some p →
        p.2.error = true →
        ((runBeats step s (bridgeBeats req)).2).length = k + 1 ∧
        ((bridgeRun step s req).2).error = true) := by
  intro σ step s req
  refine ⟨runBeats_map_fst step (bridgeBeats req) s, ?_⟩
  intro k p hget herr
  refine ⟨runBeats_error_stops step (bridgeBeats req) s k p hget herr, ?_⟩
  show (bridgeRun step s req).2.error = true
  unfold bridgeRun
  rcases hrec : runBeats step s (bridgeBeats req) with ⟨s2, trace⟩
  rw [hrec] at hget
  have := runBeats_any_error step (bridgeBeats req) s k p (by rw [hrec]; exact hget) herr
  rw [hrec] at this
  simpa using this

/-- C7 witness: against a collaborator whose very first beat errors,
a wide read issues exactly one beat and the aggregate response reports
the error. -/
theorem C7_bridge_early_abort_witness :
    ((runBeats (fun (_ : Unit) _ => ((), { rdata := 0, error := true }))
        () (bridgeBeats (wideRead 0 0xF))).2).length = 0 + 1 ∧
    ((bridgeRun (fun (_ : Unit) _ => ((), { rdata := 0, error := true }))
        () (wideRead 0 0xF)).2).error = true :=
  (C7_bridge_early_abort Unit (fun _ _ => ((), { rdata := 0, error := true }))
      () (wideRead 0 0xF)).2 0
    ({ addr := 0, is_write := false, wdata := 0, enabled := true },
     { rdata := 0, error := true })
    (by decide) rfl

/-- C9: the dense bridge (sparse=False, data_width 32 over a CSR bus
of data_width 8) decomposes every wide transaction into exactly
`32 / 8 = 4` beats: the planned beat sequence always has four beats,
and against any collaborator that reports no error exactly four beats
are issued. -/
theorem C9_four_beats_per_txn :
    beats_per_txn = wb_data_width / csr_data_width ∧
    beats_per_txn = 4 ∧
    (∀ req : BusRequest, (bridgeBeats req).length = 4) ∧
    (∀ (σ : Type) (step : σ → CsrBeat → σ × CsrResp) (s : σ) (req : BusRequest),
      (∀ (s' : σ) (b : CsrBeat), (step s' b).2.error = false) →
      ((runBeats step s (bridgeBeats req)).2).length = 4) := by
  refine ⟨rfl, rfl, ?_, ?_⟩
  · intro req
    simp [bridgeBeats, beats_per_txn, wb_data_width, csr_data_width]
  · intro σ step s req h
    rw [runBeats_length_no_error step h (bridgeBeats req) s]
    simp [bridgeBeats, beats_per_txn, wb_data_width, csr_data_width]

/-- C9 witness: a wide read against the never-erroring memory
collaborator issues exactly four beats. -/
theorem C9_four_beats_per_txn_witness :
    ((runBeats memStep (fun _ => 0) (bridgeBeats (wideRead 0x01000004 0xF))).2).length = 4 :=
  C9_four_beats_per_txn.2.2.2 (Nat → Nat) memStep (fun _ => 0)
    (wideRead 0x01000004 0xF) memStep_no_error


lemma range4 : List.range beats_per_txn = [0, 1, 2, 3] := by decide

lemma bridgeBeats_write (a v s : Nat) : bridgeBeats (wideWrite a v s) =
    [ { addr := beatBase a + 0, is_write := true, wdata := byteSlice v 0, enabled := s.testBit 0 },
      { addr := beatBase a + 1, is_write := true, wdata := byteSlice v 1, enabled := s.testBit 1 },
      { addr := beatBase a + 2, is_write := true, wdata := byteSlice v 2, enabled := s.testBit 2 },
      { addr := beatBase a + 3, is_write := true, wdata := byteSlice v 3, enabled := s.testBit 3 } ] := by
  unfold bridgeBeats
  rw [range4]
  rfl

lemma bridgeBeats_read (a s : Nat) : bridgeBeats (wideRead a s) =
    [ { addr := beatBase a + 0, is_write := false, wdata := 0, enabled := true },
      { addr := beatBase a + 1, is_write := false, wdata := 0, enabled := true },
      { addr := beatBase a + 2, is_write := false, wdata := 0, enabled := true },
      { addr := beatBase a + 3, is_write := false, wdata := 0, enabled := true } ] := by
  unfold bridgeBeats
  rw [range4]
  rfl

lemma runBeats_cons_no_error {σ : Type} (step : σ → CsrBeat → σ × CsrResp)
    (s s1 : σ) (b : CsrBeat) (bs : List CsrBeat) (r : CsrResp)
    (hstep : step s b = (s1, r)) (he : r.error = false) :
    runBeats step s (b :: bs) =
      ((runBeats step s1 bs).1, (b, r) :: (runBeats step s1 bs).2) := by
  simp [runBeats, hstep, he]

lemma memStep_write_eq (mem : Nat → Nat) (a1 w : Nat) (e : Bool) :
    memStep mem { addr := a1, is_write := true, wdata := w, enabled := e } =
      ((if e then fun x => if x = a1 then w % 256 else mem x % 256
        else fun x => mem x % 256),
       { rdata := 0, error := false }) := rfl

lemma memStep_read_eq (mem : Nat → Nat) (a1 : Nat) :
    memStep mem { addr := a1, is_write := false, wdata := 0, enabled := true } =
      (fun x => mem x % 256, { rdata := mem a1 % 256, error := false }) := rfl

lemma assemble_four (p0 p1 p2 p3 : CsrBeat × CsrResp) :
    assemble [p0, p1, p2, p3] =
      p0.2.rdata % 256 + p1.2.rdata % 256 * 256 +
      p2.2.rdata % 256 * 256 ^ 2 + p3.2.rdata % 256 * 256 ^ 3 := by
  simp [assemble, List.range_succ]
  ring

lemma bridgeWrite_mem_apply (mem : Nat → Nat) (a v s x : Nat) :
    (bridgeRun memStep mem (wideWrite a v s)).1 x =
      (if x = beatBase a + 3 ∧ s.testBit 3 = true then byteSlice v 3 % 256 else
       if x = beatBase a + 2 ∧ s.testBit 2 = true then byteSlice v 2 % 256 else
       if x = beatBase a + 1 ∧ s.testBit 1 = true then byteSlice v 1 % 256 else
       if x = beatBase a + 0 ∧ s.testBit 0 = true then byteSlice v 0 % 256 else
       mem x % 256) % 256 := by
  rw [bridgeRun, bridgeBeats_write]
  rw [runBeats_cons_no_error memStep mem _ _ _ _ (memStep_write_eq mem _ _ _) rfl]
  rw [runBeats_cons_no_error memStep _ _ _ _ _ (memStep_write_eq _ _ _ _) rfl]
  rw [runBeats_cons_no_error memStep _ _ _ _ _ (memStep_write_eq _ _ _ _) rfl]
  rw [runBeats_cons_no_error memStep _ _ _ _ _ (memStep_write_eq _ _ _ _) rfl]
  simp only [runBeats]
  cases h0 : s.testBit 0 <;> cases h1 : s.testBit 1 <;>
    cases h2 : s.testBit 2 <;> cases h3 : s.testBit 3 <;>
    simp [h0, h1, h2, h3] <;> split_ifs <;> omega

lemma bridgeRead_value (mem : Nat → Nat) (a s : Nat) :
    ((bridgeRun memStep mem (wideRead a s)).2).read_data =
      mem (beatBase a + 0) % 256 + mem (beatBase a + 1) % 256 * 256 +
      mem (beatBase a + 2) % 256 * 256 ^ 2 + mem (beatBase a + 3) % 256 * 256 ^ 3 := by
  rw [bridgeRun, bridgeBeats_read]
  rw [runBeats_cons_no_error memStep mem _ _ _ _ (memStep_read_eq mem _) rfl]
  rw [runBeats_cons_no_error memStep _ _ _ _ _ (memStep_read_eq _ _) rfl]
  rw [runBeats_cons_no_error memStep _ _ _ _ _ (memStep_read_eq _ _) rfl]
  rw [runBeats_cons_no_error memStep _ _ _ _ _ (memStep_read_eq _ _) rfl]
  simp only [runBeats]
  rw [assemble_four]
  simp only []
  omega

/-- C6 counterexample: with all-zero target memory, writing
0xFFFFFFFF at address 0 with byte-select mask 0x1 and reading back with
the same mask returns 0x000000FF, not the written value: the claim as
stated fails for partial byte-select masks (write beats are gated by
the mask while read beats are issued unconditionally). -/
theorem C6_csr_roundtrip_counterexample :
    writeThenRead (fun _ => 0) 0 0xFFFFFFFF 0x1 ≠ 0xFFFFFFFF := by decide

/-- C6 (amended): beats are issued in increasing-address order and the
read beats are concatenated least-significant beat first; the wide
write followed by the wide read at the same address returns the value
whose mask-selected bytes are the corresponding bytes of the written
value and whose remaining bytes are the target's prior bytes at those
addresses; in particular with the full mask 0xF the exact written value
(below 2^32) is returned. -/
theorem C6_csr_roundtrip_amended :
    ∀ (mem : Nat → Nat) (a v s : Nat),
      issuedAddrs memStep mem (wideWrite a v s) =
        [beatBase a + 0, beatBase a + 1, beatBase a + 2, beatBase a + 3] ∧
      writeThenRead mem a v s =
        (if s.testBit 0 then byteSlice v 0 else mem (beatBase a + 0) % 256) +
        (if s.testBit 1 then byteSlice v 1 else mem (beatBase a + 1) % 256) * 256 +
        (if s.testBit 2 then byteSlice v 2 else mem (beatBase a + 2) % 256) * 256 ^ 2 +
        (if s.testBit 3 then byteSlice v 3 else mem (beatBase a + 3) % 256) * 256 ^ 3 ∧
      (v < 2 ^ 32 → s = 0xF → writeThenRead mem a v s = v) := by
  intro mem a v s
  have h2 : writeThenRead mem a v s =
      (if s.testBit 0 then byteSlice v 0 else mem (beatBase a + 0) % 256) +
      (if s.testBit 1 then byteSlice v 1 else mem (beatBase a + 1) % 256) * 256 +
      (if s.testBit 2 then byteSlice v 2 else mem (beatBase a + 2) % 256) * 256 ^ 2 +
      (if s.testBit 3 then byteSlice v 3 else mem (beatBase a + 3) % 256) * 256 ^ 3 := by
    rw [writeThenRead, bridgeRead_value]
    rw [bridgeWrite_mem_apply, bridgeWrite_mem_apply, bridgeWrite_mem_apply, bridgeWrite_mem_apply]
    simp only [byteSlice]
    cases h0 : s.testBit 0 <;> cases h1 : s.testBit 1 <;>
      cases h2 : s.testBit 2 <;> cases h3 : s.testBit 3 <;>
      simp [h0, h1, h2, h3]
  refine ⟨?_, h2, ?_⟩
  · rw [issuedAddrs, bridgeBeats_write]
    rw [runBeats_cons_no_error memStep mem _ _ _ _ (memStep_write_eq mem _ _ _) rfl]
    rw [runBeats_cons_no_error memStep _ _ _ _ _ (memStep_write_eq _ _ _ _) rfl]
    rw [runBeats_cons_no_error memStep _ _ _ _ _ (memStep_write_eq _ _ _ _) rfl]
    rw [runBeats_cons_no_error memStep _ _ _ _ _ (memStep_write_eq _ _ _ _) rfl]
    simp [runBeats]
  · intro hv hs
    subst hs
    rw [h2]
    have t0 : Nat.testBit 0xF 0 = true := by decide
    have t1 : Nat.testBit 0xF 1 = true := by decide
    have t2 : Nat.testBit 0xF 2 = true := by decide
    have t3 : Nat.testBit 0xF 3 = true := by decide
    simp only [t0, t1, t2, t3, if_true, byteSlice]
    omega

/-- C6 witness for the amended round trip: the full-mask write of
0xDEADBEEF at address 0 reads back exactly. -/
theorem C6_csr_roundtrip_amended_witness :
    writeThenRead (fun _ => 0) 0 0xDEADBEEF 0xF = 0xDEADBEEF :=
  (C6_csr_roundtrip_amended (fun _ => 0) 0 0xDEADBEEF 0xF).2.2 (by decide) rfl

end SoCFabric
